import Mathlib

/-!
A shallow embedding of the ts-minifier repository (src/src/compressor.ts,
src/src/types.ts).  The TypeScript compiler API (`ts.createSourceFile`,
`ts.transform`, `ts.createPrinter`), the `glob` package and the `source-map`
package are external libraries that are not part of the repository; where their
behaviour decides a claim they are modelled from the specification (see the
doc comments marked "Modelled from the spec").  Everything else is translated
directly from the source.

Machine strings are modelled as Lean `String` (character counts, as the spec
fixes character counts rather than byte counts).  JavaScript exceptions are
modelled with `Except`: a thrown error propagates, uncaught, to the caller,
exactly as in the source, which contains no try/catch.  JavaScript division,
which can produce NaN and infinities, is modelled by `JSNum`.
-/

namespace TsMin

/-- CompressionLevel from src/src/types.ts (enum NONE / MINIMAL / AGGRESSIVE). -/
inductive CompressionLevel
  | NONE
  | MINIMAL
  | AGGRESSIVE
deriving DecidableEq

/-- outputFormat field values from src/src/types.ts ("single" | "multiple"). -/
inductive OutputFormat
  | single
  | multiple
deriving DecidableEq

/-- CompressOptions from src/src/types.ts.  `customNamePatterns` (RegExp[] in the
source) is modelled as opaque pattern strings; `input` is the optional `input`
field. -/
structure CompressOptions where
  level : CompressionLevel
  outputFormat : OutputFormat
  generateSourceMaps : Bool := false
  customNamePatterns : List String := []
  excludePatterns : List String := []
  input : List String := []

/-- One recorded original-range/generated-range correspondence of the
position-map builder (the source-map package's addMapping payload). -/
structure Mapping where
  originalStart : Nat
  originalEnd : Nat
  generatedStart : Nat
  generatedEnd : Nat
deriving DecidableEq

/-- Modelled from the spec (4.4): the Position-Map Builder (the external
source-map package's SourceMapGenerator).  It accumulates mapping entries;
`toString` serializes exactly the accumulated entries, so the artifact is
modelled by the builder's state itself. -/
structure SourceMapGenerator where
  file : String
  mappings : List Mapping
deriving DecidableEq

/-- A JavaScript number as far as the stats computation needs it: an exact
rational, NaN, or a signed infinity. -/
inductive JSNum
  | num (q : ℚ)
  | nan
  | inf
  | negInf
deriving DecidableEq

/-- JavaScript division of two non-negative integer counts: 0/0 is NaN and
c/0 with c > 0 is Infinity, otherwise the exact quotient. -/
def jsDivNat (a b : Nat) : JSNum :=
  if b = 0 then (if a = 0 then JSNum.nan else JSNum.inf) else JSNum.num ((a : ℚ) / (b : ℚ))

/-- JavaScript `1 - x` on the JSNum model. -/
def jsOneSub : JSNum → JSNum
  | JSNum.num q => JSNum.num (1 - q)
  | JSNum.nan => JSNum.nan
  | JSNum.inf => JSNum.negInf
  | JSNum.negInf => JSNum.inf

/-- The stats record of CompressResult (src/src/types.ts). -/
structure Stats where
  originalSize : Nat
  compressedSize : Nat
  compressionRatio : JSNum
deriving DecidableEq

/-- CompressResult from src/src/types.ts. -/
structure CompressResult where
  outputFiles : List String
  sourceMapFiles : Option (List String)
  stats : Stats
deriving DecidableEq

/-- The offending-location record of a parse failure (spec 4.1): file path and
the position (statement index) of the unparsable text. -/
structure ParseError where
  path : String
  pos : Nat
deriving DecidableEq

/-- The errors the pipeline can raise: a parse failure, or a file-system
failure from statSync/readFileSync on a missing path. -/
inductive CompressError
  | parseError (e : ParseError)
  | fsError (path : String)
deriving DecidableEq

/-! ### The file system and path helpers -/

/-- The file system visible to the run: a finite list of (absolute path,
content) pairs.  A path is a directory when some file lies strictly under it. -/
structure FileSys where
  files : List (String × String)

/-- fs.readFileSync, as an Option: `none` models the thrown ENOENT. -/
def readFileSync (fs : FileSys) (p : String) : Option String :=
  fs.files.lookup p

/-- stats.isFile(): the path is a stored file. -/
def isFile (fs : FileSys) (p : String) : Bool :=
  (readFileSync fs p).isSome

/-- Does `needle` occur at the start of `hay`? -/
def leadsWith : List Char → List Char → Bool
  | [], _ => true
  | _ :: _, [] => false
  | a :: as, b :: bs => a == b && leadsWith as bs

/-- Does `needle` occur at the end of `hay`? -/
def trailsWith (needle hay : List Char) : Bool :=
  leadsWith needle.reverse hay.reverse

/-- Does `needle` occur contiguously anywhere in `hay`? -/
def containsSub (needle : List Char) : List Char → Bool
  | [] => needle.isEmpty
  | c :: rest => leadsWith needle (c :: rest) || containsSub needle rest

/-- Substring containment on strings (used to state the comment-token and
identifier-occurrence properties). -/
def strContains (hay needle : String) : Bool :=
  containsSub needle.data hay.data

/-- stats.isDirectory(): some stored file lies strictly below the path. -/
def isDirectory (fs : FileSys) (p : String) : Bool :=
  fs.files.any (fun e => leadsWith (p ++ "/").data e.1.data)

/-- The suffix of a character list after its last slash (the whole list when
it has no slash). -/
def afterLastSlash (l : List Char) : List Char :=
  l.foldl (fun acc c => if c = '/' then [] else acc ++ [c]) []

/-- path.basename: the final path component. -/
def basename (p : String) : String :=
  String.mk (afterLastSlash p.data)

/-- path.join of two segments. -/
def pathJoin (a b : String) : String :=
  a ++ "/" ++ b

/-- On a reversed character list, the segment up to and including the first
dot, when there is one (i.e. the reversed extension of the un-reversed list). -/
def revTakeToDot : List Char → Option (List Char)
  | [] => none
  | c :: cs => if c = '.' then some [c] else (revTakeToDot cs).map (fun e => c :: e)

/-- path.extname: the extension of the base name, from its last dot; empty when
the base name has no dot or only its leading character is a dot. -/
def extname (p : String) : String :=
  let b := afterLastSlash p.data
  match revTakeToDot b.reverse with
  | none => ""
  | some revext => if revext.length = b.length then "" else String.mk revext.reverse

/-- Does the string start with a dot (a hidden file name)? -/
def dotStart (s : String) : Bool :=
  match s.data with
  | [] => false
  | c :: _ => c == '.'

/-- Modelled from the spec (section 1, exclude-glob filtering): the external
glob package's single-pattern match, for the pattern shapes the repository
uses; a pattern of shape double-star-slash-name matches any path ending in
slash-name (or equal to name), any other pattern matches only itself. -/
def globMatch (pattern p : String) : Bool :=
  if leadsWith ("**/").data pattern.data then
    let suffix := pattern.data.drop 3
    (p.data == suffix) || trailsWith (("/").data ++ suffix) p.data
  else p.data == pattern.data

/-- Modelled from the spec (section 1): glob.sync of the literal pattern
dir slash double-star slash star-dot-ts with an ignore list, as the source
calls it: every stored file strictly under `inputPath` whose extension is .ts,
whose base name is not a dotfile, and which matches no ignore pattern, in
file-system order. -/
def globSync (fs : FileSys) (inputPath : String) (ignore : List String) : List String :=
  (fs.files.filter (fun e =>
      leadsWith (inputPath ++ "/").data e.1.data
      && decide (extname e.1 = ".ts")
      && !(dotStart (basename e.1))
      && !(ignore.any (fun pat => globMatch pat e.1)))).map (fun e => e.1)

/-- What fs.statSync reports about a path. -/
inductive FileStat
  | directory
  | file
deriving DecidableEq

/-- fs.statSync: directory when files lie below the path, file when the path is
stored, otherwise the thrown ENOENT error. -/
def statSync (fs : FileSys) (p : String) : Except CompressError FileStat :=
  if isDirectory fs p then Except.ok FileStat.directory
  else if isFile fs p then Except.ok FileStat.file
  else Except.error (CompressError.fsError p)

/-- One iteration of the forEach in resolveInputFiles (src/src/compressor.ts
lines 40-51): stat the path; a directory contributes its glob expansion with
the exclude patterns as ignore list, a file contributes itself only when its
extension is .ts, anything else was already rejected by statSync. -/
def resolveStep (fs : FileSys) (excl : List String) (files : List String)
    (inputPath : String) : Except CompressError (List String) :=
  match statSync fs inputPath with
  | Except.error e => Except.error e
  | Except.ok FileStat.directory => Except.ok (files ++ globSync fs inputPath excl)
  | Except.ok FileStat.file =>
      if extname inputPath = ".ts" then Except.ok (files ++ [inputPath])
      else Except.ok files

/-- The forEach loop of resolveInputFiles, threading the accumulated list. -/
def resolveLoop (fs : FileSys) (excl : List String) :
    List String → List String → Except CompressError (List String)
  | files, [] => Except.ok files
  | files, inputPath :: rest =>
      match resolveStep fs excl files inputPath with
      | Except.error e => Except.error e
      | Except.ok files2 => resolveLoop fs excl files2 rest

/-- resolveInputFiles (src/src/compressor.ts lines 37-54). -/
def resolveInputFiles (fs : FileSys) (inputPaths : List String)
    (excl : List String) : Except CompressError (List String) :=
  resolveLoop fs excl [] inputPaths

/-! ### The abstract syntax tree

Comments are trivia, not tree nodes, exactly as in the TypeScript AST: a
statement carries its leading comment trivia and the source file carries the
trivia before its end-of-file token.  The embedding attaches trivia at the
top-statement level.  A variable statement holds its declarations directly
(the declaration-list wrapper of the TypeScript AST carries no information the
claims touch). -/

/-- The kinds of comment trivia: ordinary line and block comments, and
documentation (JSDoc) blocks. -/
inductive CommentKind
  | line
  | block
  | doc
deriving DecidableEq

/-- One comment trivia item. -/
structure Comment where
  kind : CommentKind
  text : String
deriving DecidableEq

/-- Is this a documentation-comment block? -/
def Comment.isDoc (c : Comment) : Bool :=
  decide (c.kind = CommentKind.doc)

/-- A node of the tree, covering the grammar the claims exercise.  A
function's name is kept as a raw string (the rewriter never touches it: its
parent is the function declaration, not a variable declaration). -/
inductive Node
  | identifier (text : String)
  | stringLiteral (value : String)
  | variableDeclaration (name : Node) (initializer : Option Node)
  | variableStatement (declarations : List Node)
  | parameter (name : Node)
  | functionDeclaration (name : String) (params : List Node) (body : List Node)
  | callExpression (callee : Node) (args : List Node)
  | expressionStatement (e : Node)
  | propertyAssignment (name : Node) (value : Node)
  | objectLiteral (props : List Node)
  | importSpecifier (name : Node)
  | returnStatement (e : Option Node)

/-- A top-level statement: its leading comment trivia and its tree node. -/
structure Stmt where
  comments : List Comment
  node : Node

/-- The SourceFile node: file name, statements, and the comment trivia before
the end-of-file token. -/
structure SourceFile where
  fileName : String
  statements : List Stmt
  endComments : List Comment

/-! ### The tree rewriter (createTransformer, src/src/compressor.ts 114-165) -/

/-- ts.isJSDocCommentContainingNode: in this embedding comments are trivia and
never appear as tree nodes, so the guard of minimalCompression (lines 145-147)
never fires — matching the TypeScript AST, where visitEachChild never hands
JSDoc trivia to the visitor. -/
def isJSDocCommentContainingNode : Node → Bool := fun _ => false

/-- shortenName (src/src/compressor.ts lines 162-165): an underscore followed
by the decimal character count of the original name. -/
def shortenName (name : String) : String :=
  "_" ++ toString name.length

mutual

/-- aggressiveCompression (src/src/compressor.ts lines 151-160): an identifier
whose parent node is a variable declaration is replaced by its shortened name;
every other node is rebuilt from its recursively visited children
(visitEachChild), each child seeing this node as its parent.  `fromVarDecl`
records whether the node being visited has a variable-declaration parent. -/
def aggressiveCompression (fromVarDecl : Bool) : Node → Node
  | Node.identifier text =>
      if fromVarDecl then Node.identifier (shortenName text) else Node.identifier text
  | Node.stringLiteral v => Node.stringLiteral v
  | Node.variableDeclaration name init =>
      Node.variableDeclaration (aggressiveCompression true name)
        (aggressiveCompressionOpt true init)
  | Node.variableStatement decls =>
      Node.variableStatement (aggressiveCompressionList false decls)
  | Node.parameter name => Node.parameter (aggressiveCompression false name)
  | Node.functionDeclaration name params body =>
      Node.functionDeclaration name (aggressiveCompressionList false params)
        (aggressiveCompressionList false body)
  | Node.callExpression callee args =>
      Node.callExpression (aggressiveCompression false callee)
        (aggressiveCompressionList false args)
  | Node.expressionStatement e => Node.expressionStatement (aggressiveCompression false e)
  | Node.propertyAssignment n v =>
      Node.propertyAssignment (aggressiveCompression false n) (aggressiveCompression false v)
  | Node.objectLiteral props => Node.objectLiteral (aggressiveCompressionList false props)
  | Node.importSpecifier n => Node.importSpecifier (aggressiveCompression false n)
  | Node.returnStatement e => Node.returnStatement (aggressiveCompressionOpt false e)

/-- visitEachChild over a child list for aggressiveCompression. -/
def aggressiveCompressionList (fromVarDecl : Bool) : List Node → List Node
  | [] => []
  | n :: ns => aggressiveCompression fromVarDecl n :: aggressiveCompressionList fromVarDecl ns

/-- visitEachChild over an optional child for aggressiveCompression. -/
def aggressiveCompressionOpt (fromVarDecl : Bool) : Option Node → Option Node
  | none => none
  | some n => some (aggressiveCompression fromVarDecl n)

end

mutual

/-- minimalCompression (src/src/compressor.ts lines 141-149): JSDoc-containing
nodes are returned unchanged, every other node is rebuilt from its recursively
visited children. -/
def minimalCompression (n : Node) : Node :=
  if isJSDocCommentContainingNode n then n
  else
    match n with
    | Node.identifier s => Node.identifier s
    | Node.stringLiteral v => Node.stringLiteral v
    | Node.variableDeclaration name init =>
        Node.variableDeclaration (minimalCompression name) (minimalCompressionOpt init)
    | Node.variableStatement decls => Node.variableStatement (minimalCompressionList decls)
    | Node.parameter name => Node.parameter (minimalCompression name)
    | Node.functionDeclaration name params body =>
        Node.functionDeclaration name (minimalCompressionList params)
          (minimalCompressionList body)
    | Node.callExpression callee args =>
        Node.callExpression (minimalCompression callee) (minimalCompressionList args)
    | Node.expressionStatement e => Node.expressionStatement (minimalCompression e)
    | Node.propertyAssignment n v =>
        Node.propertyAssignment (minimalCompression n) (minimalCompression v)
    | Node.objectLiteral props => Node.objectLiteral (minimalCompressionList props)
    | Node.importSpecifier n => Node.importSpecifier (minimalCompression n)
    | Node.returnStatement e => Node.returnStatement (minimalCompressionOpt e)

/-- visitEachChild over a child list for minimalCompression. -/
def minimalCompressionList : List Node → List Node
  | [] => []
  | n :: ns => minimalCompression n :: minimalCompressionList ns

/-- visitEachChild over an optional child for minimalCompression. -/
def minimalCompressionOpt : Option Node → Option Node
  | none => none
  | some n => some (minimalCompression n)

end

/-! ### The printer (ts.createPrinter, called at src/src/compressor.ts 107-111)

Modelled from the spec (4.3 and 8.2): printing is deterministic, and the
removeComments flag strips every ordinary comment token while documentation
blocks attached to declarations are retained. -/

/-- Which comment trivia the printer emits: with removeComments set, only
documentation blocks survive; otherwise everything is emitted. -/
def keepComment (removeComments : Bool) (c : Comment) : Bool :=
  if removeComments then c.isDoc else true

/-- Render one comment trivia item as its source token. -/
def printComment (c : Comment) : String :=
  match c.kind with
  | CommentKind.line => "//" ++ c.text ++ "\n"
  | CommentKind.block => "/*" ++ c.text ++ "*/" ++ "\n"
  | CommentKind.doc => "/**" ++ c.text ++ "*/" ++ "\n"

mutual

/-- Serialize a node back into source text. -/
def printNode : Node → String
  | Node.identifier s => s
  | Node.stringLiteral v => "\"" ++ v ++ "\""
  | Node.variableDeclaration name init =>
      printNode name ++ (match init with | none => "" | some e => " = " ++ printNode e)
  | Node.variableStatement decls => "const " ++ printNodeListSep decls ++ ";"
  | Node.parameter n => printNode n
  | Node.functionDeclaration name params body =>
      "function " ++ name ++ "(" ++ printNodeListSep params ++ ") \x7b "
        ++ printNodeListSpace body ++ " \x7d"
  | Node.callExpression callee args => printNode callee ++ "(" ++ printNodeListSep args ++ ")"
  | Node.expressionStatement e => printNode e ++ ";"
  | Node.propertyAssignment n v => printNode n ++ ": " ++ printNode v
  | Node.objectLiteral props => "\x7b " ++ printNodeListSep props ++ " \x7d"
  | Node.importSpecifier n => printNode n
  | Node.returnStatement e =>
      "return" ++ (match e with | none => "" | some x => " " ++ printNode x) ++ ";"

/-- Comma-separated rendering of a node list. -/
def printNodeListSep : List Node → String
  | [] => ""
  | [n] => printNode n
  | n :: rest => printNode n ++ ", " ++ printNodeListSep rest

/-- Space-separated rendering of a node list (statement blocks). -/
def printNodeListSpace : List Node → String
  | [] => ""
  | [n] => printNode n
  | n :: rest => printNode n ++ " " ++ printNodeListSpace rest

end

/-- Print one statement: its retained leading trivia, its node, a newline. -/
def printStatement (removeComments : Bool) (s : Stmt) : String :=
  String.join ((s.comments.filter (keepComment removeComments)).map printComment)
    ++ printNode s.node ++ "\n"

/-- printer.printFile: every statement in order, then the retained end-of-file
trivia. -/
def printFile (sf : SourceFile) (removeComments : Bool) : String :=
  String.join (sf.statements.map (printStatement removeComments))
    ++ String.join ((sf.endComments.filter (keepComment removeComments)).map printComment)

/-- All comment trivia of a source file, in emission order. -/
def allComments (sf : SourceFile) : List Comment :=
  (sf.statements.map Stmt.comments).flatten ++ sf.endComments

/-- The comment trivia the printer emits at the given removeComments flag. -/
def emittedComments (sf : SourceFile) (removeComments : Bool) : List Comment :=
  (allComments sf).filter (keepComment removeComments)

/-! ### transformSourceFile (src/src/compressor.ts 99-139) -/

/-- ts.visitNode(sourceFile, visitor) for the minimal visitor: the source file
is not a JSDoc node, so its statements are visited; trivia is untouched. -/
def applyMinimal (sf : SourceFile) : SourceFile :=
  { sf with statements :=
      sf.statements.map (fun s => { comments := s.comments, node := minimalCompression s.node }) }

/-- ts.visitNode(sourceFile, visitor) for the aggressive visitor: the source
file is not an identifier, so its statements are visited, each with the source
file (not a variable declaration) as parent; trivia is untouched. -/
def applyAggressive (sf : SourceFile) : SourceFile :=
  { sf with statements :=
      sf.statements.map (fun s =>
        { comments := s.comments, node := aggressiveCompression false s.node }) }

/-- The switch of the visitor (lines 122-133): MINIMAL and AGGRESSIVE apply
their rewriters; the default branch recurses without rewriting anything, i.e.
the identity. -/
def levelTransform : CompressionLevel → SourceFile → SourceFile
  | CompressionLevel.MINIMAL, sf => applyMinimal sf
  | CompressionLevel.AGGRESSIVE, sf => applyAggressive sf
  | CompressionLevel.NONE, sf => sf

/-- The printer flag of line 108: removeComments is set for every level other
than NONE. -/
def removeCommentsFlag (level : CompressionLevel) : Bool :=
  decide (level ≠ CompressionLevel.NONE)

/-- transformSourceFile (lines 99-112): transform, then print.  The source-map
generator is handed to the transformer factory but the visitors never record
into it, so it is returned exactly as it came in. -/
def transformSourceFile (sf : SourceFile) (options : CompressOptions)
    (gen : SourceMapGenerator) : String × SourceMapGenerator :=
  (printFile (levelTransform options.level sf) (removeCommentsFlag options.level), gen)

/-! ### The parser adapter

Modelled from the spec (4.1): `ts.createSourceFile` is part of the external
TypeScript compiler, not of this repository; per the spec's contract the
parser returns a full-fidelity tree (comment trivia included) for valid text
and fails with a ParseError carrying the file identifier and the offending
location otherwise.  The model implements the contract for the grammar
fragment the specification's scenarios exercise: semicolon-separated constant
declarations `const name = initializer` whose initializer is a single-quoted
string literal or an identifier, together with ordinary line-comment trivia.
The offending location of a failure is the index of the unparsable statement. -/

/-- Split a character list at every occurrence of the separator character. -/
def splitOnChar (sep : Char) : List Char → List (List Char)
  | [] => [[]]
  | c :: cs =>
      if c = sep then [] :: splitOnChar sep cs
      else
        match splitOnChar sep cs with
        | [] => [[c]]
        | piece :: pieces => (c :: piece) :: pieces

/-- Strip leading and trailing whitespace from a character list. -/
def trimChars (l : List Char) : List Char :=
  ((l.dropWhile Char.isWhitespace).reverse.dropWhile Char.isWhitespace).reverse

/-- May the character appear in an identifier? -/
def isIdentChar (c : Char) : Bool :=
  c.isAlphanum || c == '_'

/-- Is the character list a well-formed identifier? -/
def validIdent : List Char → Bool
  | [] => false
  | c :: cs => (c.isAlpha || c == '_') && (c :: cs).all isIdentChar

/-- Split a character list around its first occurrence of " = ". -/
def splitOnEq : List Char → Option (List Char × List Char)
  | [] => none
  | c :: cs =>
      if leadsWith (" = ").data (c :: cs) then some ([], (c :: cs).drop 3)
      else (splitOnEq cs).map (fun p => (c :: p.1, p.2))

/-- The single-quote character. -/
def quoteChar : Char := Char.ofNat 39

/-- Parse an initializer: a single-quoted string literal or an identifier. -/
def parseInitializer (rhs : List Char) : Option Node :=
  if 2 ≤ rhs.length && leadsWith [quoteChar] rhs && trailsWith [quoteChar] rhs then
    some (Node.stringLiteral (String.mk (rhs.drop 1).dropLast))
  else if validIdent rhs then some (Node.identifier (String.mk rhs))
  else none

/-- Parse a trimmed piece as a constant variable statement. -/
def parseConstStmt (t : List Char) : Option Node :=
  if leadsWith ("const ").data t then
    match splitOnEq (t.drop 6) with
    | none => none
    | some (name, rhs) =>
        if validIdent name then
          (parseInitializer rhs).map (fun init =>
            Node.variableStatement [Node.variableDeclaration
              (Node.identifier (String.mk name)) (some init)])
        else none
  else none

/-- Parse the semicolon-separated pieces of a file, in order.  A line comment
becomes leading trivia of the following statement, or end-of-file trivia when
no statement follows; whitespace-only pieces are skipped; anything else that
is not a constant declaration is a parse failure at the piece's index. -/
def parsePieces (fileName : String) : Nat → List (List Char) →
    Except ParseError (List Stmt × List Comment)
  | _, [] => Except.ok ([], [])
  | idx, piece :: rest =>
      let t := trimChars piece
      if t.isEmpty then parsePieces fileName (idx + 1) rest
      else if leadsWith ("//").data t then
        match parsePieces fileName (idx + 1) rest with
        | Except.error e => Except.error e
        | Except.ok ([], endCs) =>
            Except.ok ([], { kind := CommentKind.line, text := String.mk (t.drop 2) } :: endCs)
        | Except.ok (s :: ss, endCs) =>
            Except.ok ({ s with comments :=
              { kind := CommentKind.line, text := String.mk (t.drop 2) } :: s.comments } :: ss,
              endCs)
      else
        match parseConstStmt t with
        | some node =>
            match parsePieces fileName (idx + 1) rest with
            | Except.error e => Except.error e
            | Except.ok (ss, endCs) => Except.ok ({ comments := [], node := node } :: ss, endCs)
        | none => Except.error { path := fileName, pos := idx }

/-- The parser adapter: source text to tree, or a ParseError. -/
def parse (fileName text : String) : Except ParseError SourceFile :=
  match parsePieces fileName 0 (splitOnChar (Char.ofNat 59) text.data) with
  | Except.error e => Except.error e
  | Except.ok (ss, endCs) =>
      Except.ok { fileName := fileName, statements := ss, endComments := endCs }

/-! ### The per-file unit and the batch (src/src/compressor.ts 17-97, 167-239) -/

/-- The per-file result record of compressFile (lines 61-66).  The `sourceMap`
field holds the serialized generator when generateSourceMaps is set; the
serialization of the external source-map package is modelled by the
generator's own state, which carries exactly the recorded entries. -/
structure FileResult where
  originalContent : String
  transformedContent : String
  sourceMap : Option SourceMapGenerator
  originalPath : String

instance : Inhabited FileResult := ⟨⟨"", "", none, ""⟩⟩

/-- compressFile (lines 56-97): read the file, parse it (a parse failure
propagates uncaught), create the source-map generator for the file's base
name, transform and print, and package the file result. -/
def compressFile (fs : FileSys) (filePath : String) (options : CompressOptions) :
    Except CompressError FileResult :=
  match readFileSync fs filePath with
  | none => Except.error (CompressError.fsError filePath)
  | some sourceCode =>
      match parse filePath sourceCode with
      | Except.error e => Except.error (CompressError.parseError e)
      | Except.ok sourceFile =>
          let gen : SourceMapGenerator := { file := basename filePath, mappings := [] }
          let out := transformSourceFile sourceFile options gen
          Except.ok
            { originalContent := sourceCode
              transformedContent := out.1
              sourceMap := if options.generateSourceMaps then some out.2 else none
              originalPath := filePath }

/-- The inputFiles.map of compressFiles (lines 26-28) under JavaScript
exception semantics: files in order, aborting at the first failure.  (The
index argument of the source's map only feeds the progress logger.) -/
def compressAll (fs : FileSys) (options : CompressOptions) :
    List String → Except CompressError (List FileResult)
  | [] => Except.ok []
  | f :: rest =>
      match compressFile fs f options with
      | Except.error e => Except.error e
      | Except.ok r =>
          match compressAll fs options rest with
          | Except.error e => Except.error e
          | Except.ok rs => Except.ok (r :: rs)

/-- generateOutput (lines 167-239).  Writing the artifacts to disk is a side
effect outside the result record; the record keeps the chosen paths and the
aggregate stats, computed exactly as in the source: reduce over per-file text
lengths, ratio 1 - compressed/original under JavaScript arithmetic. -/
def generateOutput (cwd : String) (transformedFiles : List FileResult)
    (options : CompressOptions) : CompressResult :=
  let totalOriginalSize :=
    transformedFiles.foldl (fun sum file => sum + file.originalContent.length) 0
  let totalCompressedSize :=
    transformedFiles.foldl (fun sum file => sum + file.transformedContent.length) 0
  let outputDir := pathJoin cwd "dist"
  let outputFiles :=
    if options.outputFormat = OutputFormat.single then [pathJoin outputDir "compressed.ts"]
    else transformedFiles.map (fun file => pathJoin outputDir (basename file.originalPath))
  let sourceMapFiles :=
    if options.outputFormat = OutputFormat.single then
      if options.generateSourceMaps then [pathJoin outputDir "compressed.ts" ++ ".map"] else []
    else
      (transformedFiles.filter
          (fun file => options.generateSourceMaps && file.sourceMap.isSome)).map
        (fun file => pathJoin outputDir (basename file.originalPath) ++ ".map")
  { outputFiles := outputFiles
    sourceMapFiles := if options.generateSourceMaps then some sourceMapFiles else none
    stats :=
      { originalSize := totalOriginalSize
        compressedSize := totalCompressedSize
        compressionRatio := jsOneSub (jsDivNat totalCompressedSize totalOriginalSize) } }

/-- compressFiles (lines 17-35): resolve the inputs, compress each file in
order, assemble the output.  `cwd` models process.cwd(). -/
def compressFiles (fs : FileSys) (cwd : String) (inputPaths : List String)
    (options : CompressOptions) : Except CompressError CompressResult :=
  match resolveInputFiles fs inputPaths options.excludePatterns with
  | Except.error e => Except.error e
  | Except.ok inputFiles =>
      match compressAll fs options inputFiles with
      | Except.error e => Except.error e
      | Except.ok transformedFiles => Except.ok (generateOutput cwd transformedFiles options)

/-! ### Concrete scenarios used by the claims -/

/-- The transformed text of a per-file run (empty on failure). -/
def transformedContentOf (r : Except CompressError FileResult) : String :=
  match r with
  | Except.ok f => f.transformedContent
  | Except.error _ => ""

/-- The concrete input of the spec's section 8.8 scenario. -/
def c2input : String := "const longVariableName = \x27Hello World\x27; " ++ "// comment"

/-- A file system holding only the section 8.8 scenario file. -/
def fs2 : FileSys := ⟨[("/w/in.ts", c2input)]⟩

/-- MINIMAL compression options. -/
def minOpts : CompressOptions :=
  { level := CompressionLevel.MINIMAL, outputFormat := OutputFormat.multiple }

/-- AGGRESSIVE compression options. -/
def aggOpts : CompressOptions :=
  { level := CompressionLevel.AGGRESSIVE, outputFormat := OutputFormat.multiple }

/-- A file whose single declaration gets its identifier replaced. -/
def fs3 : FileSys := ⟨[("/w/v.ts", "const abc = \x27x\x27;")]⟩

/-- AGGRESSIVE options with source maps requested. -/
def aggMapOpts : CompressOptions :=
  { level := CompressionLevel.AGGRESSIVE, outputFormat := OutputFormat.multiple,
    generateSourceMaps := true }

/-- A file whose text is not syntactically valid. -/
def fs4 : FileSys := ⟨[("/w/bad.ts", "const = ;")]⟩

/-- Two well-formed input files for the order-preservation scenario. -/
def fs7 : FileSys :=
  ⟨[("/a/x.ts", "const a = \x27u\x27;"), ("/a/y.ts", "const bc = \x27v\x27;")]⟩

/-- The input list of the order-preservation scenario. -/
def files7 : List String := ["/a/x.ts", "/a/y.ts"]

/-- The exclude-filtering scenario: a directory with include.ts and exclude.ts. -/
def fs8 : FileSys :=
  ⟨[("/w/include.ts", "const a = \x27x\x27;"), ("/w/exclude.ts", "const b = \x27y\x27;")]⟩

/-- A file system with one non-.ts file and one .ts file. -/
def fs9 : FileSys := ⟨[("/w/readme.txt", "hello"), ("/w/a.ts", "const a = \x27x\x27;")]⟩

/-- A source file with an ordinary line comment and a documentation block on
its declaration, and an ordinary block comment before end-of-file. -/
def sf1 : SourceFile :=
  ⟨"/w/d.ts",
    [⟨[⟨CommentKind.line, " ordinary"⟩, ⟨CommentKind.doc, " api docs "⟩],
      Node.variableStatement
        [Node.variableDeclaration (Node.identifier "x") (some (Node.stringLiteral "v"))]⟩],
    [⟨CommentKind.block, " tail "⟩]⟩

/-- An empty position-map builder for the witness runs. -/
def gen1 : SourceMapGenerator := ⟨"d.ts", []⟩

/-- Unwrap a successful run, with a fallback value for failure. -/
def okOr {α : Type} (d : α) : Except CompressError α → α
  | Except.ok a => a
  | Except.error _ => d

/-- The per-file results of the order-preservation scenario run. -/
def res7 : List FileResult := okOr [] (compressAll fs7 minOpts files7)

/-- The batch result of the order-preservation scenario run. -/
def out7 : CompressResult :=
  okOr (generateOutput "/r" [] minOpts) (compressFiles fs7 "/r" files7 minOpts)

/-! ### Helper lemmas -/

/-- The level transforms never touch comment trivia. -/
theorem allComments_levelTransform (lvl : CompressionLevel) (sf : SourceFile) :
    allComments (levelTransform lvl sf) = allComments sf := by
  have hmin : (Stmt.comments ∘ fun s => (⟨s.comments, minimalCompression s.node⟩ : Stmt))
      = Stmt.comments := funext fun s => rfl
  have hagg : (Stmt.comments ∘ fun s => (⟨s.comments, aggressiveCompression false s.node⟩ : Stmt))
      = Stmt.comments := funext fun s => rfl
  cases lvl <;>
    simp [levelTransform, applyMinimal, applyAggressive, allComments, List.map_map, hmin, hagg]

/-- compressFile never reads the customNamePatterns field. -/
theorem compressFile_ignores_custom (fs : FileSys) (p : String) (opts : CompressOptions)
    (pats : List String) :
    compressFile fs p { opts with customNamePatterns := pats } = compressFile fs p opts := by
  cases opts
  cases hr : readFileSync fs p with
  | none => simp [compressFile, hr]
  | some src =>
      cases hp : parse p src with
      | error e => simp [compressFile, hr, hp]
      | ok sf => simp [compressFile, hr, hp, transformSourceFile]

/-- compressAll never reads the customNamePatterns field. -/
theorem compressAll_ignores_custom (fs : FileSys) (opts : CompressOptions)
    (pats : List String) (files : List String) :
    compressAll fs { opts with customNamePatterns := pats } files = compressAll fs opts files := by
  induction files with
  | nil => rfl
  | cons f rest ih => simp [compressAll, compressFile_ignores_custom, ih]

/-- A successful per-file run keeps the input path in its result. -/
theorem compressFile_ok_path {fs : FileSys} {p : String} {opts : CompressOptions}
    {r : FileResult} (h : compressFile fs p opts = Except.ok r) : r.originalPath = p := by
  cases hr : readFileSync fs p with
  | none => simp [compressFile, hr] at h
  | some src =>
      cases hp : parse p src with
      | error e => simp [compressFile, hr, hp] at h
      | ok sf =>
          simp only [compressFile, hr, hp] at h
          injection h with h2
          subst h2
          rfl

/-- A string of length zero is empty. -/
theorem string_length_zero {s : String} (h : s.length = 0) : s = "" := by
  cases s with
  | mk data =>
      have hd : data = [] := List.length_eq_zero.mp h
      rw [hd]

/-- Every level transform fixes the empty source file. -/
theorem levelTransform_empty (lvl : CompressionLevel) (p : String) :
    levelTransform lvl ⟨p, [], []⟩ = ⟨p, [], []⟩ := by
  cases lvl <;> rfl

/-- A successful per-file run of an empty file prints the empty string. -/
theorem compressFile_empty_transformed {fs : FileSys} {p : String} {opts : CompressOptions}
    {r : FileResult} (h : compressFile fs p opts = Except.ok r)
    (he : r.originalContent = "") : r.transformedContent = "" := by
  cases hr : readFileSync fs p with
  | none => simp [compressFile, hr] at h
  | some src =>
      cases hp : parse p src with
      | error e => simp [compressFile, hr, hp] at h
      | ok sf =>
          simp only [compressFile, hr, hp] at h
          injection h with h2
          subst h2
          have hsrc : src = "" := he
          subst hsrc
          have hp2 : parse p "" = Except.ok (⟨p, [], []⟩ : SourceFile) := rfl
          rw [hp2] at hp
          injection hp with hsf
          show (transformSourceFile sf opts { file := basename p, mappings := [] }).1 = ""
          rw [← hsf, transformSourceFile, levelTransform_empty]
          rfl

/-- A successful batch loop produces one result per file. -/
theorem compressAll_ok_length {fs : FileSys} {opts : CompressOptions} :
    ∀ {files : List String} {results : List FileResult},
      compressAll fs opts files = Except.ok results → results.length = files.length := by
  intro files
  induction files with
  | nil =>
      intro results h
      simp only [compressAll] at h
      injection h with h2
      rw [← h2]
      rfl
  | cons f rest ih =>
      intro results h
      simp only [compressAll] at h
      cases h1 : compressFile fs f opts with
      | error e => rw [h1] at h; exact absurd h (by simp)
      | ok r =>
          rw [h1] at h
          cases h2 : compressAll fs opts rest with
          | error e => rw [h2] at h; exact absurd h (by simp)
          | ok rs =>
              rw [h2] at h
              injection h with h3
              rw [← h3, List.length_cons, ih h2, List.length_cons]

/-- A successful batch loop is the pointwise per-file run, in input order. -/
theorem compressAll_ok_getD {fs : FileSys} {opts : CompressOptions} :
    ∀ {files : List String} {results : List FileResult},
      compressAll fs opts files = Except.ok results →
      ∀ i, i < files.length →
        compressFile fs (files.getD i "") opts = Except.ok (results.getD i default) := by
  intro files
  induction files with
  | nil => intro results _ i hi; simp at hi
  | cons f rest ih =>
      intro results h i hi
      simp only [compressAll] at h
      cases h1 : compressFile fs f opts with
      | error e => rw [h1] at h; exact absurd h (by simp)
      | ok r =>
          rw [h1] at h
          cases h2 : compressAll fs opts rest with
          | error e => rw [h2] at h; exact absurd h (by simp)
          | ok rs =>
              rw [h2] at h
              injection h with h3
              rw [← h3]
              cases i with
              | zero => simpa using h1
              | succ j =>
                  have hj : j < rest.length := by
                    simpa [Nat.succ_lt_succ_iff] using hi
                  simpa using ih h2 j hj

/-- Every result of a successful batch loop comes from some input file. -/
theorem compressAll_ok_mem {fs : FileSys} {opts : CompressOptions} :
    ∀ {files : List String} {results : List FileResult},
      compressAll fs opts files = Except.ok results →
      ∀ r ∈ results, ∃ f, f ∈ files ∧ compressFile fs f opts = Except.ok r := by
  intro files
  induction files with
  | nil =>
      intro results h r hr
      simp only [compressAll] at h
      injection h with h2
      rw [← h2] at hr
      simp at hr
  | cons f rest ih =>
      intro results h r hr
      simp only [compressAll] at h
      cases h1 : compressFile fs f opts with
      | error e => rw [h1] at h; exact absurd h (by simp)
      | ok r0 =>
          rw [h1] at h
          cases h2 : compressAll fs opts rest with
          | error e => rw [h2] at h; exact absurd h (by simp)
          | ok rs =>
              rw [h2] at h
              injection h with h3
              rw [← h3] at hr
              rcases List.mem_cons.mp hr with hr0 | hrs
              · exact ⟨f, List.mem_cons_self f rest, by rw [hr0]; exact h1⟩
              · rcases ih h2 r hrs with ⟨g, hg, hcg⟩
                exact ⟨g, List.mem_cons_of_mem f hg, hcg⟩

/-- A failing file makes the whole batch loop fail. -/
theorem compressAll_error_of_mem {fs : FileSys} {opts : CompressOptions} :
    ∀ {files : List String} {f : String} {e : CompressError},
      f ∈ files → compressFile fs f opts = Except.error e →
      ∃ e2, compressAll fs opts files = Except.error e2 := by
  intro files
  induction files with
  | nil => intro f e hf _; simp at hf
  | cons g rest ih =>
      intro f e hf hcf
      rcases List.mem_cons.mp hf with hfg | hfr
      · subst hfg
        exact ⟨e, by simp [compressAll, hcf]⟩
      · cases h1 : compressFile fs g opts with
        | error e1 => exact ⟨e1, by simp [compressAll, h1]⟩
        | ok r =>
            rcases ih hfr hcf with ⟨e2, h2⟩
            exact ⟨e2, by simp [compressAll, h1, h2]⟩

/-- Every parse failure carries the file it was parsing. -/
theorem parsePieces_error_path (fn : String) :
    ∀ (ps : List (List Char)) (idx : Nat) (e : ParseError),
      parsePieces fn idx ps = Except.error e → e.path = fn := by
  intro ps
  induction ps with
  | nil => intro idx e h; simp [parsePieces] at h
  | cons piece rest ih =>
      intro idx e h
      simp only [parsePieces] at h
      split at h
      · exact ih _ _ h
      · split at h
        · split at h
          · rename_i heq
            injection h with h2
            rw [← h2]
            exact ih _ _ heq
          · exact absurd h (by simp)
          · exact absurd h (by simp)
        · split at h
          · split at h
            · rename_i heq
              injection h with h2
              rw [← h2]
              exact ih _ _ heq
            · exact absurd h (by simp)
          · injection h with h2
            rw [← h2]

/-- The parser's failures carry the parsed file's name. -/
theorem parse_error_path {fn t : String} {e : ParseError}
    (h : parse fn t = Except.error e) : e.path = fn := by
  simp only [parse] at h
  split at h
  · rename_i heq
    injection h with h2
    rw [← h2]
    exact parsePieces_error_path fn _ _ _ heq
  · exact absurd h (by simp)

/-- The reduce of the stats computation is a plain sum. -/
theorem foldl_add_map {α : Type} (g : α → Nat) :
    ∀ (l : List α) (n : Nat), l.foldl (fun s x => s + g x) n = n + (l.map g).sum := by
  intro l
  induction l with
  | nil => intro n; simp
  | cons x xs ih => intro n; simp [ih, List.sum_cons]; omega

/-- getD through a map, at in-range indices. -/
theorem getD_map {α β : Type} (f : α → β) (d : β) (d0 : α) :
    ∀ (l : List α) (i : Nat), i < l.length → (l.map f).getD i d = f (l.getD i d0) := by
  intro l
  induction l with
  | nil => intro i hi; simp at hi
  | cons x xs ih =>
      intro i hi
      cases i with
      | zero => simp
      | succ j =>
          have hj : j < xs.length := by simpa [Nat.succ_lt_succ_iff] using hi
          simpa using ih j hj

/-- The suffix after the last slash ignores everything before a slash. -/
theorem afterLastSlash_append_slash (x y : List Char) :
    afterLastSlash (x ++ '/' :: y) = afterLastSlash y := by
  simp only [afterLastSlash, List.foldl_append, List.foldl_cons]
  simp

/-- On slash-free input the fold only appends. -/
theorem afterLastSlash_acc (y : List Char) (hy : ∀ c ∈ y, c ≠ '/') :
    ∀ acc : List Char,
      y.foldl (fun acc c => if c = '/' then [] else acc ++ [c]) acc = acc ++ y := by
  induction y with
  | nil => intro acc; simp
  | cons c cs ih =>
      intro acc
      have hc : c ≠ '/' := hy c (List.mem_cons_self c cs)
      have hcs : ∀ a ∈ cs, a ≠ '/' := fun a ha => hy a (List.mem_cons_of_mem c ha)
      simp only [List.foldl_cons, if_neg hc]
      rw [ih hcs]
      simp

/-- The suffix after the last slash contains no slash. -/
theorem afterLastSlash_no_slash (l : List Char) :
    ∀ acc : List Char, (∀ c ∈ acc, c ≠ '/') →
      ∀ c ∈ l.foldl (fun acc c => if c = '/' then [] else acc ++ [c]) acc, c ≠ '/' := by
  induction l with
  | nil => intro acc hacc; exact hacc
  | cons x xs ih =>
      intro acc hacc
      by_cases hx : x = '/'
      · simp only [List.foldl_cons, if_pos hx]
        exact ih [] (by simp)
      · simp only [List.foldl_cons, if_neg hx]
        refine ih (acc ++ [x]) ?_
        intro c hc
        rcases List.mem_append.mp hc with h1 | h2
        · exact hacc c h1
        · rw [List.mem_singleton.mp h2]; exact hx

/-- The base name of a joined path is the base name of its second segment. -/
theorem basename_pathJoin (a b : String) : basename (pathJoin a b) = basename b := by
  have hdata : (pathJoin a b).data = a.data ++ '/' :: b.data := by
    simp [pathJoin, String.data_append]
  rw [basename, hdata, afterLastSlash_append_slash, basename]

/-- basename is idempotent. -/
theorem basename_basename (p : String) : basename (basename p) = basename p := by
  rw [basename, basename]
  congr 1
  have hns : ∀ c ∈ afterLastSlash p.data, c ≠ '/' :=
    afterLastSlash_no_slash p.data [] (by simp)
  show afterLastSlash (String.mk (afterLastSlash p.data)).data = afterLastSlash p.data
  have hmk : (String.mk (afterLastSlash p.data)).data = afterLastSlash p.data := rfl
  rw [hmk, afterLastSlash, afterLastSlash_acc _ hns []]
  simp

/-- glob expansion only delivers .ts files. -/
theorem mem_globSync_ext {fs : FileSys} {dir : String} {excl : List String} {q : String}
    (hq : q ∈ globSync fs dir excl) : extname q = ".ts" := by
  simp only [globSync, List.mem_map] at hq
  rcases hq with ⟨e, he, rfl⟩
  have h2 := (List.mem_filter.mp he).2
  simp only [Bool.and_eq_true, decide_eq_true_eq] at h2
  exact h2.1.1.2

/-- Every file the resolution loop delivers has the .ts extension. -/
theorem resolveLoop_ok_ext {fs : FileSys} {excl : List String} :
    ∀ (inputs : List String) (acc files : List String),
      (∀ q ∈ acc, extname q = ".ts") →
      resolveLoop fs excl acc inputs = Except.ok files →
      ∀ q ∈ files, extname q = ".ts" := by
  intro inputs
  induction inputs with
  | nil =>
      intro acc files hacc h q hq
      simp only [resolveLoop] at h
      injection h with h2
      rw [← h2] at hq
      exact hacc q hq
  | cons p rest ih =>
      intro acc files hacc h q hq
      simp only [resolveLoop] at h
      cases hstep : resolveStep fs excl acc p with
      | error e => rw [hstep] at h; exact absurd h (by simp)
      | ok acc2 =>
          rw [hstep] at h
          refine ih acc2 files ?_ h q hq
          intro x hx
          simp only [resolveStep] at hstep
          cases hstat : statSync fs p with
          | error e => rw [hstat] at hstep; exact absurd hstep (by simp)
          | ok st =>
              rw [hstat] at hstep
              cases st with
              | directory =>
                  injection hstep with h3
                  rw [← h3] at hx
                  rcases List.mem_append.mp hx with h4 | h4
                  · exact hacc x h4
                  · exact mem_globSync_ext h4
              | file =>
                  by_cases hts : extname p = ".ts"
                  · rw [if_pos hts] at hstep
                    injection hstep with h3
                    rw [← h3] at hx
                    rcases List.mem_append.mp hx with h4 | h4
                    · exact hacc x h4
                    · rw [List.mem_singleton.mp h4]; exact hts
                  · rw [if_neg hts] at hstep
                    injection hstep with h3
                    rw [← h3] at hx
                    exact hacc x hx

/-- Every resolved input file has the .ts extension. -/
theorem resolveInputFiles_ok_ext {fs : FileSys} {inputs excl files : List String}
    (h : resolveInputFiles fs inputs excl = Except.ok files) :
    ∀ q ∈ files, extname q = ".ts" :=
  resolveLoop_ok_ext inputs [] files (by simp) h

/-! ### The claims -/

/-- C1: for every input compressed at level MINIMAL or AGGRESSIVE, the printed
output is the print of the transformed tree with removeComments set, and the
comment trivia the printer emits there is exactly the documentation-comment
blocks of the input: no ordinary comment token of the input is emitted, and
every documentation block attached to a declaration is retained. -/
theorem c1_comment_elimination (sf : SourceFile) (opts : CompressOptions)
    (gen : SourceMapGenerator)
    (h : opts.level = CompressionLevel.MINIMAL ∨ opts.level = CompressionLevel.AGGRESSIVE) :
    transformSourceFile sf opts gen = (printFile (levelTransform opts.level sf) true, gen)
    ∧ emittedComments (levelTransform opts.level sf) true = (allComments sf).filter Comment.isDoc
    ∧ ∀ c ∈ emittedComments (levelTransform opts.level sf) true, c.kind = CommentKind.doc := by
  have hflag : removeCommentsFlag opts.level = true := by
    rcases h with h | h <;> rw [h] <;> rfl
  refine ⟨?_, ?_, ?_⟩
  · simp [transformSourceFile, hflag]
  · rw [emittedComments, allComments_levelTransform]
    rfl
  · intro c hc
    rw [emittedComments, List.mem_filter] at hc
    have h2 := hc.2
    simp [keepComment, Comment.isDoc] at h2
    exact h2

/-- C1 witness: the comment-elimination property at a concrete file carrying
an ordinary line comment, a documentation block, and an ordinary block comment. -/
theorem c1_comment_elimination_w :
    (minOpts.level = CompressionLevel.MINIMAL ∨ minOpts.level = CompressionLevel.AGGRESSIVE)
    ∧ transformSourceFile sf1 minOpts gen1
        = (printFile (levelTransform minOpts.level sf1) true, gen1)
    ∧ emittedComments (levelTransform minOpts.level sf1) true
        = (allComments sf1).filter Comment.isDoc :=
  ⟨Or.inl rfl, (c1_comment_elimination sf1 minOpts gen1 (Or.inl rfl)).1,
    (c1_comment_elimination sf1 minOpts gen1 (Or.inl rfl)).2.1⟩

/-- C2 counterexample: on the concrete input of the scenario, AGGRESSIVE
compression produces `const _16 = "Hello World";` — the sixteen-character
identifier longVariableName becomes `_16`, and `_17` appears nowhere in the
output, against the claim's asserted generated name. -/
theorem c2_aggressive_name_cx :
    transformedContentOf (compressFile fs2 "/w/in.ts" aggOpts) = "const _16 = \"Hello World\";\n"
    ∧ strContains (transformedContentOf (compressFile fs2 "/w/in.ts" aggOpts)) "_17" = false :=
  ⟨rfl, rfl⟩

/-- C2 amended: on the concrete scenario input, MINIMAL compression yields
output with no line-comment token and the identifier longVariableName intact,
and AGGRESSIVE compression replaces longVariableName by `_16` (its character
count is sixteen, not seventeen). -/
theorem c2_concrete_scenario :
    strContains (transformedContentOf (compressFile fs2 "/w/in.ts" minOpts)) "//" = false
    ∧ strContains (transformedContentOf (compressFile fs2 "/w/in.ts" minOpts)) "longVariableName"
        = true
    ∧ transformedContentOf (compressFile fs2 "/w/in.ts" aggOpts) = "const _16 = \"Hello World\";\n"
    ∧ strContains (transformedContentOf (compressFile fs2 "/w/in.ts" aggOpts)) "_16" = true :=
  ⟨rfl, rfl, rfl, rfl⟩

/-- C3: at AGGRESSIVE level with generateSourceMaps set, a run that performs
an identifier substitution (abc becomes _3) still finalizes a mapping artifact
with zero entries — the rewriter never records into the position-map builder,
so the claim's "at least one position-mapping entry" fails on the code. -/
theorem c3_mapping_artifact_empty :
    (compressFile fs3 "/w/v.ts" aggMapOpts).map
        (fun r => (r.transformedContent, r.sourceMap))
      = Except.ok ("const _3 = \"x\";\n", some ⟨"v.ts", []⟩) := rfl

/-- C4: when a resolved input file's text fails to parse, the per-file run
fails with a ParseError carrying that file's path, and the whole batch fails
with no result produced. -/
theorem c4_parse_failure_aborts_batch (fs : FileSys) (cwd : String)
    (inputPaths : List String) (opts : CompressOptions) (files : List String)
    (f content : String) (e : ParseError)
    (hres : resolveInputFiles fs inputPaths opts.excludePatterns = Except.ok files)
    (hf : f ∈ files)
    (hread : readFileSync fs f = some content)
    (hparse : parse f content = Except.error e) :
    compressFile fs f opts = Except.error (CompressError.parseError e)
    ∧ e.path = f
    ∧ ∃ err, compressFiles fs cwd inputPaths opts = Except.error err := by
  have hcf : compressFile fs f opts = Except.error (CompressError.parseError e) := by
    simp [compressFile, hread, hparse]
  refine ⟨hcf, parse_error_path hparse, ?_⟩
  rcases compressAll_error_of_mem hf hcf with ⟨e2, h2⟩
  exact ⟨e2, by simp [compressFiles, hres, h2]⟩

/-- C4 witness: a concrete syntactically invalid file aborts its batch. -/
theorem c4_parse_failure_aborts_batch_w :
    parse "/w/bad.ts" "const = ;" = Except.error ⟨"/w/bad.ts", 0⟩
    ∧ compressFile fs4 "/w/bad.ts" minOpts
        = Except.error (CompressError.parseError ⟨"/w/bad.ts", 0⟩)
    ∧ ∃ err, compressFiles fs4 "/r" ["/w/bad.ts"] minOpts = Except.error err := by
  have h := c4_parse_failure_aborts_batch fs4 "/r" ["/w/bad.ts"] minOpts ["/w/bad.ts"]
    "/w/bad.ts" "const = ;" ⟨"/w/bad.ts", 0⟩ rfl (by simp) rfl rfl
  exact ⟨rfl, h.1, h.2.2⟩

/-- C5 counterexample: the identifier `b`, which is the initializer of the
declaration `const a = b` and not its direct name, is nevertheless replaced by
the aggressive rewriter (both identifiers become `_1`), refuting the claim's
"if and only if it is the direct name of a variable-declaration node". -/
theorem c5_initializer_renamed_cx :
    applyAggressive ⟨"f.ts", [⟨[], Node.variableStatement
        [Node.variableDeclaration (Node.identifier "a") (some (Node.identifier "b"))]⟩], []⟩
      = ⟨"f.ts", [⟨[], Node.variableStatement
        [Node.variableDeclaration (Node.identifier "_1") (some (Node.identifier "_1"))]⟩], []⟩
    ∧ Node.identifier "_1" ≠ Node.identifier "b" := by
  refine ⟨rfl, ?_⟩
  intro h
  injection h with h'
  exact absurd h' (by decide)

/-- C5 amended: the aggressive rewriter replaces an identifier exactly when
its parent node is a variable declaration — which covers the declaration's
name and an identifier standing directly as its initializer; the generated
name is an underscore followed by the decimal character count, so equal-length
names collide; parameter names, property names, imported symbol names and
function names are never replaced. -/
theorem c5_renaming_rule :
    (∀ b s, aggressiveCompression b (Node.identifier s)
        = if b then Node.identifier (shortenName s) else Node.identifier s)
    ∧ (∀ b name init, aggressiveCompression b (Node.variableDeclaration name init)
        = Node.variableDeclaration (aggressiveCompression true name)
            (aggressiveCompressionOpt true init))
    ∧ (∀ s, shortenName s = "_" ++ toString s.length)
    ∧ (∀ s t, s.length = t.length → shortenName s = shortenName t)
    ∧ (∀ b n, aggressiveCompression b (Node.parameter n)
        = Node.parameter (aggressiveCompression false n))
    ∧ (∀ b n v, aggressiveCompression b (Node.propertyAssignment n v)
        = Node.propertyAssignment (aggressiveCompression false n) (aggressiveCompression false v))
    ∧ (∀ b n, aggressiveCompression b (Node.importSpecifier n)
        = Node.importSpecifier (aggressiveCompression false n))
    ∧ (∀ b nm ps bd, aggressiveCompression b (Node.functionDeclaration nm ps bd)
        = Node.functionDeclaration nm (aggressiveCompressionList false ps)
            (aggressiveCompressionList false bd)) := by
  refine ⟨fun b s => by cases b <;> rfl, fun b n i => rfl, fun s => rfl, ?_, fun b n => rfl,
    fun b n v => rfl, fun b n => rfl, fun b nm ps bd => rfl⟩
  intro s t h
  simp [shortenName, h]

/-- C5 witness: two distinct three-character names receive the same generated
name. -/
theorem c5_renaming_rule_w : shortenName "abc" = shortenName "xyz" := by
  have h := c5_renaming_rule
  exact h.2.2.2.1 "abc" "xyz" rfl

/-- C6: the batch stats are the sums of the per-file character counts of the
original and transformed texts, the ratio is 1 minus their JavaScript
quotient, and a batch whose total original size is zero yields a NaN ratio. -/
theorem c6_stats (fs : FileSys) (cwd : String) (inputPaths : List String)
    (opts : CompressOptions) (files : List String) (results : List FileResult)
    (result : CompressResult)
    (hres : resolveInputFiles fs inputPaths opts.excludePatterns = Except.ok files)
    (hmap : compressAll fs opts files = Except.ok results)
    (hrun : compressFiles fs cwd inputPaths opts = Except.ok result) :
    result.stats.originalSize = (results.map (fun r => r.originalContent.length)).sum
    ∧ result.stats.compressedSize = (results.map (fun r => r.transformedContent.length)).sum
    ∧ result.stats.compressionRatio
        = jsOneSub (jsDivNat result.stats.compressedSize result.stats.originalSize)
    ∧ (result.stats.originalSize = 0 → result.stats.compressionRatio = JSNum.nan) := by
  have hresult : result = generateOutput cwd results opts := by
    simp only [compressFiles, hres, hmap] at hrun
    injection hrun with h2
    exact h2.symm
  subst hresult
  have ho : (generateOutput cwd results opts).stats.originalSize
      = (results.map (fun r => r.originalContent.length)).sum := by
    simp [generateOutput, foldl_add_map]
  have hc : (generateOutput cwd results opts).stats.compressedSize
      = (results.map (fun r => r.transformedContent.length)).sum := by
    simp [generateOutput, foldl_add_map]
  have hratio : (generateOutput cwd results opts).stats.compressionRatio
      = jsOneSub (jsDivNat (generateOutput cwd results opts).stats.compressedSize
          (generateOutput cwd results opts).stats.originalSize) := rfl
  refine ⟨ho, hc, hratio, ?_⟩
  intro h0
  have hall : ∀ r ∈ results, r.originalContent.length = 0 := by
    rw [ho] at h0
    intro r hr
    exact List.sum_eq_zero_iff.mp h0 _ (List.mem_map_of_mem _ hr)
  have hallt : ∀ r ∈ results, r.transformedContent.length = 0 := by
    intro r hr
    rcases compressAll_ok_mem hmap r hr with ⟨f, hf, hcf⟩
    have he : r.originalContent = "" := string_length_zero (hall r hr)
    rw [compressFile_empty_transformed hcf he]
    rfl
  have hc0 : (results.map (fun r => r.transformedContent.length)).sum = 0 := by
    apply List.sum_eq_zero
    intro x hx
    rcases List.mem_map.mp hx with ⟨r, hr, rfl⟩
    exact hallt r hr
  rw [hratio, hc, hc0, h0]
  rfl

/-- C6 witness: the empty batch has total original size zero and a NaN ratio. -/
theorem c6_stats_w :
    compressFiles (⟨[]⟩ : FileSys) "/r" [] minOpts
      = Except.ok (generateOutput "/r" [] minOpts)
    ∧ (generateOutput "/r" [] minOpts).stats.originalSize = 0
    ∧ (generateOutput "/r" [] minOpts).stats.compressionRatio = JSNum.nan := by
  have h := c6_stats (⟨[]⟩ : FileSys) "/r" [] minOpts [] [] (generateOutput "/r" [] minOpts)
    rfl rfl rfl
  exact ⟨rfl, rfl, h.2.2.2 rfl⟩

/-- C7: a successful batch over N resolved files produces N per-file results
in input order, and with the multiple output format the output file list has
length N and its i-th entry's base name is the i-th input's base name. -/
theorem c7_order_preservation (fs : FileSys) (cwd : String) (inputPaths : List String)
    (opts : CompressOptions) (files : List String) (results : List FileResult)
    (result : CompressResult)
    (hfmt : opts.outputFormat = OutputFormat.multiple)
    (hres : resolveInputFiles fs inputPaths opts.excludePatterns = Except.ok files)
    (hmap : compressAll fs opts files = Except.ok results)
    (hrun : compressFiles fs cwd inputPaths opts = Except.ok result) :
    results.length = files.length
    ∧ (∀ i, i < files.length → (results.getD i default).originalPath = files.getD i "")
    ∧ result.outputFiles.length = files.length
    ∧ ∀ i, i < files.length →
        basename (result.outputFiles.getD i "") = basename (files.getD i "") := by
  have hlen := compressAll_ok_length hmap
  have hresult : result = generateOutput cwd results opts := by
    simp only [compressFiles, hres, hmap] at hrun
    injection hrun with h2
    exact h2.symm
  subst hresult
  have hpath : ∀ i, i < files.length →
      (results.getD i default).originalPath = files.getD i "" := by
    intro i hi
    exact compressFile_ok_path (compressAll_ok_getD hmap i hi)
  have hout : (generateOutput cwd results opts).outputFiles
      = results.map (fun r => pathJoin (pathJoin cwd "dist") (basename r.originalPath)) := by
    simp [generateOutput, hfmt]
  refine ⟨hlen, hpath, ?_, ?_⟩
  · rw [hout, List.length_map, hlen]
  · intro i hi
    have hi2 : i < results.length := by rw [hlen]; exact hi
    rw [hout, getD_map _ "" default _ i hi2, basename_pathJoin, basename_basename, hpath i hi]

/-- C7 witness: the two-file multiple-format scenario produces two results and
matching base names at index one. -/
theorem c7_order_preservation_w :
    res7.length = files7.length
    ∧ out7.outputFiles.length = files7.length
    ∧ basename (out7.outputFiles.getD 1 "") = basename (files7.getD 1 "") := by
  have h := c7_order_preservation fs7 "/r" files7 minOpts files7 res7 out7 rfl rfl rfl rfl
  exact ⟨h.1, h.2.2.1, h.2.2.2 1 (by decide)⟩

/-- C8 counterexample: with include.ts and exclude.ts passed directly as file
inputs and an exclude pattern matching exclude.ts, the resolved list still
contains both files — exclude patterns are not consulted for file inputs — so
the resolved list is not only include.ts. -/
theorem c8_direct_inputs_cx :
    resolveInputFiles fs8 ["/w/include.ts", "/w/exclude.ts"] ["**/exclude.ts"]
      = Except.ok ["/w/include.ts", "/w/exclude.ts"]
    ∧ (["/w/include.ts", "/w/exclude.ts"] : List String) ≠ ["/w/include.ts"] :=
  ⟨rfl, by decide⟩

/-- C8 amended: exclude patterns filter only directory inputs: resolving the
directory containing include.ts and exclude.ts with the exclude pattern yields
only include.ts, while passing the two files directly bypasses the filter. -/
theorem c8_exclude_filtering :
    resolveInputFiles fs8 ["/w"] ["**/exclude.ts"] = Except.ok ["/w/include.ts"]
    ∧ resolveInputFiles fs8 ["/w/include.ts", "/w/exclude.ts"] ["**/exclude.ts"]
        = Except.ok ["/w/include.ts", "/w/exclude.ts"] := ⟨rfl, rfl⟩

/-- C9: an existing file whose extension is not .ts is silently dropped by
input resolution — its resolution step returns the accumulator unchanged
without error, it never appears in any successfully resolved file list, and no
per-file result carries its path. -/
theorem c9_non_ts_file_skipped (fs : FileSys) (excl : List String) (p : String)
    (hfile : isFile fs p = true) (hdir : isDirectory fs p = false)
    (hext : extname p ≠ ".ts") :
    (∀ acc, resolveStep fs excl acc p = Except.ok acc)
    ∧ (∀ inputPaths files, resolveInputFiles fs inputPaths excl = Except.ok files → p ∉ files)
    ∧ (∀ inputPaths files opts results,
        resolveInputFiles fs inputPaths excl = Except.ok files →
        compressAll fs opts files = Except.ok results →
        ∀ r ∈ results, r.originalPath ≠ p) := by
  refine ⟨?_, ?_, ?_⟩
  · intro acc
    simp [resolveStep, statSync, hdir, hfile, hext]
  · intro inputs files hres hp
    exact hext (resolveInputFiles_ok_ext hres p hp)
  · intro inputs files opts results hres hmap r hr hpath
    rcases compressAll_ok_mem hmap r hr with ⟨f, hf, hcf⟩
    have hrp : r.originalPath = f := compressFile_ok_path hcf
    rw [hrp] at hpath
    subst hpath
    exact hext (resolveInputFiles_ok_ext hres f hf)

/-- C9 witness: a concrete .txt file is skipped without error. -/
theorem c9_non_ts_file_skipped_w :
    resolveStep fs9 [] [] "/w/readme.txt" = Except.ok []
    ∧ "/w/readme.txt" ∉ ["/w/a.ts"]
    ∧ resolveInputFiles fs9 ["/w/readme.txt", "/w/a.ts"] [] = Except.ok ["/w/a.ts"] := by
  have h := c9_non_ts_file_skipped fs9 [] "/w/readme.txt" rfl rfl (by decide)
  exact ⟨h.1 [], h.2.1 ["/w/readme.txt", "/w/a.ts"] ["/w/a.ts"] rfl, rfl⟩

/-- C10: two option records differing only in customNamePatterns produce
identical batch results and identical per-file results — the field is never
consulted. -/
theorem c10_custom_name_patterns_unused (fs : FileSys) (cwd : String)
    (inputPaths : List String) (opts : CompressOptions) (pats : List String) :
    compressFiles fs cwd inputPaths { opts with customNamePatterns := pats }
      = compressFiles fs cwd inputPaths opts
    ∧ ∀ p, compressFile fs p { opts with customNamePatterns := pats } = compressFile fs p opts := by
  refine ⟨?_, fun p => compressFile_ignores_custom fs p opts pats⟩
  have hres : resolveInputFiles fs inputPaths
      ({ opts with customNamePatterns := pats } : CompressOptions).excludePatterns
      = resolveInputFiles fs inputPaths opts.excludePatterns := rfl
  have hgen : ∀ rs, generateOutput cwd rs { opts with customNamePatterns := pats }
      = generateOutput cwd rs opts := by
    intro rs; cases opts; rfl
  simp only [compressFiles, hres]
  cases resolveInputFiles fs inputPaths opts.excludePatterns with
  | error e => rfl
  | ok files =>
      simp only [compressAll_ignores_custom]
      cases compressAll fs opts files with
      | error e => rfl
      | ok rs => simp [hgen]

end TsMin
